import Mathlib

/-!
Shallow embedding of the asgilook image-hosting service
(`asgilook/cache.py`, `asgilook/store.py`) and proofs about it.

Byte strings are modelled as lists of naturals; Python dicts, Redis key
spaces, response header maps and the filesystem are modelled as
association lists with update-or-insert semantics.
-/

namespace Asgilook

abbrev Bytes := List Nat

/-- Lookup in an association list (Python dict access / `redis.get`). -/
def dictGet {α : Type} (k : String) : List (String × α) → Option α
  | [] => none
  | (k', v) :: rest => if k' = k then some v else dictGet k rest

/-- Update-or-insert in an association list (Python dict assignment / `redis.set`). -/
def dictSet {α : Type} (k : String) (v : α) : List (String × α) → List (String × α)
  | [] => [(k, v)]
  | (k', v') :: rest => if k' = k then (k, v) :: rest else (k', v') :: dictSet k v rest

/-- Key removal from an association list (`redis.delete`); removing an
absent key is a no-op, not an error. -/
def dictDelete {α : Type} (k : String) : List (String × α) → List (String × α)
  | [] => []
  | (k', v') :: rest => if k' = k then dictDelete k rest else (k', v') :: dictDelete k rest

/-! ## Cache middleware (`asgilook/cache.py`, class `RedisCache`) -/

/-- An incoming HTTP request as seen by the middleware: `req.method` and `req.path`. -/
structure Request where
  method : String
  path : String
deriving Repr, DecidableEq

/-- The per-request context bag; the middleware uses the single field
`resp.context.cached`. -/
structure RespContext where
  cached : Bool
deriving Repr, DecidableEq

/-- The response object populated by middleware and handler: `resp.complete`,
`resp.data`, `resp.context` and the header map touched by `resp.set_header`. -/
structure Response where
  context : RespContext
  complete : Bool
  data : Option Bytes
  headers : List (String × String)
deriving Repr, DecidableEq

/-- The external Redis key space: key to (value bytes, remaining TTL seconds).
The server exists independently of the middleware handle. -/
abbrev RedisServer := List (String × Bytes × Nat)

/-- Python runtime error raised by attribute access on `None`
(`self.redis.delete` while `self.redis is None`). -/
inductive PyErr where
  | attributeErrorNone
deriving Repr, DecidableEq

/-- Constant `RedisCache.PREFIX = "asgilook:"`. -/
def PREFIX : String := "asgilook:"

/-- Constant `RedisCache.INVALIDATE_ON`: the set DELETE, POST, PUT. -/
def INVALIDATE_ON : List String := ["DELETE", "POST", "PUT"]

/-- Constant `RedisCache.CACHE_HEADER = "X-ASGILook-Cache"`. -/
def CACHE_HEADER : String := "X-ASGILook-Cache"

/-- Constant `RedisCache.TTL = 3600`. -/
def TTL : Nat := 3600

/-- The cache key computed in both hooks, the f-string
`PREFIX + "/" + req.path`. -/
def cacheKey (path : String) : String := PREFIX ++ "/" ++ path

/-- The middleware object: `self.redis` starts as `None` in `__init__` and is
set by `create_pool`; the connection handle is modelled as `Unit`. -/
structure RedisCache where
  redis : Option Unit
deriving Repr, DecidableEq

/-- Constructor `RedisCache.__init__`: it sets `self.redis = None`. -/
def RedisCache.init : RedisCache := { redis := none }

/-- Method `RedisCache.create_pool`: establishes the connection handle. -/
def RedisCache.create_pool (_cache : RedisCache) : RedisCache := { redis := some () }

/-- Method `RedisCache.process_request`: reset `resp.context.cached`, return early on
mutating methods, else lazily initialize the handle, look the key up on the
server and either short-circuit with a Hit or record a Miss. -/
def RedisCache.process_request (cache : RedisCache) (server : RedisServer)
    (req : Request) (resp : Response) : RedisCache × Response :=
  let resp1 := { resp with context := { cached := false } }
  if req.method ∈ INVALIDATE_ON then
    (cache, resp1)
  else
    let cache1 := if cache.redis = none then cache.create_pool else cache
    match dictGet (cacheKey req.path) server with
    | some (data, _ttl) =>
        (cache1, { resp1 with
                     complete := true
                     context := { cached := true }
                     data := some data
                     headers := dictSet CACHE_HEADER "Hit" resp1.headers })
    | none =>
        (cache1, { resp1 with headers := dictSet CACHE_HEADER "Miss" resp1.headers })

/-- Truthiness of `resp.data` in Python: neither `None` nor empty bytes. -/
def respTruthyData (resp : Response) : Bool :=
  match resp.data with
  | some d => !d.isEmpty
  | none => false

/-- The bytes of `resp.data` (defaulting to empty, only used under truthiness). -/
def respBodyBytes (resp : Response) : Bytes := resp.data.getD []

/-- Method `RedisCache.process_response`: skip failed requests; on mutating methods
delete the key, else store a fresh non-empty body with the fixed TTL.
Attribute access on an uninitialized (`None`) handle raises. -/
def RedisCache.process_response (cache : RedisCache) (server : RedisServer)
    (req : Request) (resp : Response) (req_succeeded : Bool) :
    Except PyErr RedisServer :=
  if !req_succeeded then
    .ok server
  else
    let key := cacheKey req.path
    if req.method ∈ INVALIDATE_ON then
      match cache.redis with
      | none => .error .attributeErrorNone
      | some _ => .ok (dictDelete key server)
    else if !resp.context.cached && respTruthyData resp then
      match cache.redis with
      | none => .error .attributeErrorNone
      | some _ => .ok (dictSet key (respBodyBytes resp, TTL) server)
    else
      .ok server

/-! ## Image codec (`PIL` adapter used by `asgilook/store.py`) -/

/-- An in-memory decoded image: pixel dimensions, color mode and raw samples. -/
structure Image where
  width : Nat
  height : Nat
  mode : String
  pixels : List Nat
deriving Repr, DecidableEq

/-- Errors raised inside `Store.save`: a malformed upload
(`PIL.UnidentifiedImageError`) or a persistence failure (`IOError`). -/
inductive StoreErr where
  | decodeError
  | ioError
deriving Repr, DecidableEq

/-- Modelled from the spec: `PIL.Image.open` (the codec decode capability is
the external PIL library, not repository code). Decodes bytes of any
supported input format into an `Image` or fails with a decode error. The
model format is: a leading mode tag (0 = grayscale "L" with one sample per
pixel, 1 = "RGB" with three samples per pixel), then width, height, and
exactly the announced number of samples. -/
def imageOpen (data : Bytes) : Except StoreErr Image :=
  match data with
  | m :: w :: h :: px =>
      if m = 0 then
        if px.length = w * h then .ok ⟨w, h, "L", px⟩ else .error .decodeError
      else if m = 1 then
        if px.length = 3 * w * h then .ok ⟨w, h, "RGB", px⟩ else .error .decodeError
      else .error .decodeError
  | _ => .error .decodeError

/-- Modelled from the spec: `image.convert("RGB")` forces the RGB color model
while keeping the pixel dimensions (grayscale samples are replicated across
the three channels). -/
def Image.convertRGB (img : Image) : Image :=
  if img.mode = "RGB" then img
  else { width := img.width, height := img.height, mode := "RGB",
         pixels := img.pixels.flatMap fun p => [p, p, p] }

/-- Modelled from the spec: `rgb_image.save(converted, "JPEG")` serializes an
RGB image to the canonical output encoding (tag 1, width, height, samples). -/
def Image.saveJPEG (img : Image) : Bytes :=
  1 :: img.width :: img.height :: img.pixels

/-! ## Catalog store (`asgilook/store.py`, class `Store`) -/

/-- One catalog record, the dict built in `Store.save`: the caller-supplied
id, the creation timestamp (`utcnow().isoformat()` is modelled as a natural
number, order-isomorphic to ISO-8601 string comparison), and the decoded
image dimensions `image.size`. -/
structure CatalogEntry where
  id : String
  modified : Nat
  size : Nat × Nat
deriving Repr, DecidableEq

/-- The store object: the configured storage root, the in-memory catalog dict
`self._images`, and the filesystem written through `aiofiles`. -/
structure StoreState where
  storage_path : String
  images : List (String × CatalogEntry)
  files : List (String × Bytes)
deriving Repr, DecidableEq

/-- Function `os.path.join(storage_path, image_id)` for the relative ids in scope. -/
def osPathJoin (a b : String) : String := a ++ "/" ++ b

/-- Method `Store._load_from_bytes`: decode the uploaded bytes via the codec. -/
def Store.load_from_bytes (data : Bytes) : Except StoreErr Image :=
  imageOpen data

/-- Method `Store._convert`: force RGB, then encode to the canonical JPEG form. -/
def Store.convert (image : Image) : Bytes :=
  (image.convertRGB).saveJPEG

/-- Method `Store.save(image_id, data)`: decode, convert, persist the converted bytes
at the id-derived path, then insert the catalog entry. `now` is the clock
reading and `writeOk` tells whether the file write succeeds; on any failure
the state is returned unchanged together with the raised error. -/
def Store.save (s : StoreState) (image_id : String) (data : Bytes)
    (now : Nat) (writeOk : Bool) : StoreState × Except StoreErr CatalogEntry :=
  match Store.load_from_bytes data with
  | .error e => (s, .error e)
  | .ok image =>
      let converted := Store.convert image
      let path := osPathJoin s.storage_path image_id
      if writeOk then
        let stored : CatalogEntry :=
          { id := image_id, modified := now, size := (image.width, image.height) }
        ({ s with
             files := dictSet path converted s.files
             images := dictSet image_id stored s.images },
         .ok stored)
      else
        (s, .error .ioError)

/-- Method `Store.list_images`: sorted catalog values, key the modified field. -/
def Store.list_images (s : StoreState) : List CatalogEntry :=
  (s.images.map Prod.snd).mergeSort fun a b => decide (a.modified ≤ b.modified)

/-! ## Lazy initialization under interleaving

A model of the fragment

    if self.redis is None:
        await self.create_pool()

with `create_pool` assigning `self.redis` after an `await` suspension point.
Each concurrent request runs two atomic steps: the `None` check (after which
the coroutine may be suspended inside `create_pool`), and the completion of
`create_pool`, which creates a fresh connection and assigns the handle.
Connections are numbered so that `created` counts how many were ever made. -/

inductive TaskPC where
  | start
  | awaitingPool
  | taskDone
deriving Repr, DecidableEq

/-- Shared state of the lazy-initialization fragment plus one program counter
per task. `redis = none` models the uninitialized handle. -/
structure InitState where
  redis : Option Nat
  created : Nat
  tasks : List TaskPC
deriving Repr, DecidableEq

/-- One atomic step of task `i` (no-op for finished or out-of-range tasks). -/
def stepTask (s : InitState) (i : Nat) : InitState :=
  match s.tasks[i]? with
  | none => s
  | some .start =>
      if s.redis = none then { s with tasks := s.tasks.set i .awaitingPool }
      else { s with tasks := s.tasks.set i .taskDone }
  | some .awaitingPool =>
      { s with redis := some (s.created + 1), created := s.created + 1,
               tasks := s.tasks.set i .taskDone }
  | some .taskDone => s

/-- Run a schedule: the list of task indices in the order the event loop
resumes them. -/
def runSched (s : InitState) : List Nat → InitState
  | [] => s
  | i :: rest => runSched (stepTask s i) rest

/-- State of `n` concurrent first requests against a freshly constructed middleware. -/
def initState (n : Nat) : InitState :=
  { redis := none, created := 0, tasks := List.replicate n .start }

/-- The sequential schedule: each request runs to completion before the next
one starts. -/
def seqSched (n : Nat) : List Nat :=
  (List.range n).flatMap fun i => [i, i]

/-! ## Helper lemmas about association lists -/

theorem dictGet_dictSet_self {α : Type} (k : String) (v : α) (l : List (String × α)) :
    dictGet k (dictSet k v l) = some v := by
  induction l with
  | nil => simp [dictGet, dictSet]
  | cons p rest ih =>
      by_cases h : p.1 = k <;> simp [dictGet, dictSet, h, ih]

theorem dictGet_dictDelete_self {α : Type} (k : String) (l : List (String × α)) :
    dictGet k (dictDelete k l) = none := by
  induction l with
  | nil => simp [dictGet, dictDelete]
  | cons p rest ih =>
      by_cases h : p.1 = k <;> simp [dictGet, dictDelete, h, ih]

theorem dictDelete_of_dictGet_none {α : Type} (k : String) (l : List (String × α))
    (h : dictGet k l = none) : dictDelete k l = l := by
  induction l with
  | nil => simp [dictDelete]
  | cons p rest ih =>
      by_cases hp : p.1 = k
      · simp [dictGet, hp] at h
      · simp [dictGet, hp] at h
        simp [dictDelete, hp, ih h]

/-! ## Claim theorems for the cache middleware -/

/-- C5: `process_request` sets `resp.context.cached` to `false` as its first
action (its result never depends on the incoming value of that field), and on
a mutating method (DELETE, POST, PUT) it does nothing further: the middleware
object is unchanged (no lazy initialization) and the response is changed only
by that reset (no header is set, no body or completion flag is touched, so no
cache lookup is observable). -/
theorem process_request_resets_cached_then_skips_mutations
    (cache : RedisCache) (server : RedisServer) (req : Request) (resp : Response) :
    (RedisCache.process_request cache server req resp =
      RedisCache.process_request cache server req
        { resp with context := { cached := false } }) ∧
    (req.method ∈ INVALIDATE_ON →
      RedisCache.process_request cache server req resp =
        (cache, { resp with context := { cached := false } })) := by
  constructor
  · rfl
  · intro hm
    simp [RedisCache.process_request, hm]

/-- Witness for C5 at a concrete POST request. -/
theorem process_request_resets_cached_then_skips_mutations_witness :
    RedisCache.process_request RedisCache.init [] ⟨"POST", "/images"⟩
        ⟨⟨true⟩, false, none, []⟩ =
      (RedisCache.init, ⟨⟨false⟩, false, none, []⟩) :=
  (process_request_resets_cached_then_skips_mutations RedisCache.init []
      ⟨"POST", "/images"⟩ ⟨⟨true⟩, false, none, []⟩).2 (by decide)

/-- C6: when the request did not succeed (`req_succeeded = false`),
`process_response` performs no backend operation: the Redis key space is
returned unchanged and no exception is raised. -/
theorem process_response_failed_request_noop
    (cache : RedisCache) (server : RedisServer) (req : Request) (resp : Response) :
    RedisCache.process_response cache server req resp false = .ok server := rfl

/-- C2: for a succeeded request with an established backend handle,
`process_response` deletes the path-derived key on DELETE, POST and PUT
(deleting an absent key is a no-op, not an error), and otherwise stores the
response body under that key with the fixed one-hour TTL exactly when the
response was not served from cache and its body is non-empty. -/
theorem process_response_success_policy
    (cache : RedisCache) (server : RedisServer) (req : Request) (resp : Response)
    (h : cache.redis = some ()) :
    TTL = 3600 ∧
    (req.method ∈ INVALIDATE_ON →
      RedisCache.process_response cache server req resp true =
        .ok (dictDelete (cacheKey req.path) server)) ∧
    (req.method ∉ INVALIDATE_ON →
      RedisCache.process_response cache server req resp true =
        .ok (if !resp.context.cached && respTruthyData resp then
               dictSet (cacheKey req.path) (respBodyBytes resp, TTL) server
             else server)) ∧
    (dictGet (cacheKey req.path) server = none →
      dictDelete (cacheKey req.path) server = server) := by
  refine ⟨rfl, ?_, ?_, dictDelete_of_dictGet_none _ _⟩
  · intro hm
    simp [RedisCache.process_response, hm, h]
  · intro hm
    by_cases hc : (!resp.context.cached && respTruthyData resp) = true
    · simp [RedisCache.process_response, hm, h, hc]
    · simp [RedisCache.process_response, hm, h, hc]

/-- Witness for C2: a concrete successful POST deletes its key, and a
concrete successful fresh GET with a non-empty body stores it with TTL 3600. -/
theorem process_response_success_policy_witness :
    RedisCache.process_response ⟨some ()⟩ [(cacheKey "/images", ([7], 9))]
        ⟨"POST", "/images"⟩ ⟨⟨false⟩, false, none, []⟩ true =
      .ok (dictDelete (cacheKey "/images") [(cacheKey "/images", ([7], 9))]) ∧
    RedisCache.process_response ⟨some ()⟩ [] ⟨"GET", "/images"⟩
        ⟨⟨false⟩, false, some [1, 2], []⟩ true =
      .ok (if !(false : Bool) && respTruthyData ⟨⟨false⟩, false, some [1, 2], []⟩ then
             dictSet (cacheKey "/images")
               (respBodyBytes ⟨⟨false⟩, false, some [1, 2], []⟩, TTL) []
           else []) :=
  ⟨(process_response_success_policy ⟨some ()⟩ [(cacheKey "/images", ([7], 9))]
      ⟨"POST", "/images"⟩ ⟨⟨false⟩, false, none, []⟩ rfl).2.1 (by decide),
   (process_response_success_policy ⟨some ()⟩ [] ⟨"GET", "/images"⟩
      ⟨⟨false⟩, false, some [1, 2], []⟩ rfl).2.2.1 (by decide)⟩

/-- C3: for a read method, `process_request` computes the key
"asgilook:/" ++ path and looks it up: on a hit it marks the response
complete, sets `cached = true`, copies the cached bytes into the body and
sets the cache header to "Hit"; on a miss it sets the header to "Miss",
leaves the completion flag alone (the handler runs) and leaves
`cached = false`. The single-valued header map carries exactly one of the
two values. -/
theorem process_request_read_lookup
    (cache : RedisCache) (server : RedisServer) (req : Request) (resp : Response)
    (hm : req.method ∉ INVALIDATE_ON) :
    cacheKey req.path = "asgilook:/" ++ req.path ∧
    (∀ d t, dictGet (cacheKey req.path) server = some (d, t) →
      (RedisCache.process_request cache server req resp).2.complete = true ∧
      (RedisCache.process_request cache server req resp).2.context.cached = true ∧
      (RedisCache.process_request cache server req resp).2.data = some d ∧
      dictGet CACHE_HEADER (RedisCache.process_request cache server req resp).2.headers
        = some "Hit") ∧
    (dictGet (cacheKey req.path) server = none →
      dictGet CACHE_HEADER (RedisCache.process_request cache server req resp).2.headers
        = some "Miss" ∧
      (RedisCache.process_request cache server req resp).2.complete = resp.complete ∧
      (RedisCache.process_request cache server req resp).2.context.cached = false) := by
  refine ⟨rfl, ?_, ?_⟩
  · intro d t hfound
    simp [RedisCache.process_request, hm, hfound, dictGet_dictSet_self]
  · intro habsent
    simp [RedisCache.process_request, hm, habsent, dictGet_dictSet_self]

/-- Witness for C3: a concrete GET against a server holding the key is a
hit, and against an empty server is a miss. -/
theorem process_request_read_lookup_witness :
    ((RedisCache.process_request RedisCache.init [(cacheKey "/images", ([7, 8], 60))]
        ⟨"GET", "/images"⟩ ⟨⟨false⟩, false, none, []⟩).2.complete = true ∧
      (RedisCache.process_request RedisCache.init [(cacheKey "/images", ([7, 8], 60))]
        ⟨"GET", "/images"⟩ ⟨⟨false⟩, false, none, []⟩).2.context.cached = true ∧
      (RedisCache.process_request RedisCache.init [(cacheKey "/images", ([7, 8], 60))]
        ⟨"GET", "/images"⟩ ⟨⟨false⟩, false, none, []⟩).2.data = some [7, 8] ∧
      dictGet CACHE_HEADER
        (RedisCache.process_request RedisCache.init [(cacheKey "/images", ([7, 8], 60))]
          ⟨"GET", "/images"⟩ ⟨⟨false⟩, false, none, []⟩).2.headers = some "Hit") ∧
    dictGet CACHE_HEADER
      (RedisCache.process_request RedisCache.init []
        ⟨"GET", "/images"⟩ ⟨⟨false⟩, false, none, []⟩).2.headers = some "Miss" :=
  ⟨(process_request_read_lookup RedisCache.init [(cacheKey "/images", ([7, 8], 60))]
      ⟨"GET", "/images"⟩ ⟨⟨false⟩, false, none, []⟩ (by decide)).2.1 [7, 8] 60 rfl,
   ((process_request_read_lookup RedisCache.init []
      ⟨"GET", "/images"⟩ ⟨⟨false⟩, false, none, []⟩ (by decide)).2.2 rfl).1⟩

/-- C4: after a successful mutating request is post-processed, the key for
its path is gone from the backend, so the next GET on the same path (with no
intervening write) is a miss: it carries the "Miss" header, is not served
from cache, and its body is left untouched. -/
theorem mutation_then_get_misses
    (cache cache2 : RedisCache) (server server' : RedisServer)
    (req : Request) (resp resp0 : Response)
    (hm : req.method ∈ INVALIDATE_ON)
    (hr : RedisCache.process_response cache server req resp true = .ok server') :
    dictGet CACHE_HEADER
        (RedisCache.process_request cache2 server' ⟨"GET", req.path⟩ resp0).2.headers
      = some "Miss" ∧
    (RedisCache.process_request cache2 server' ⟨"GET", req.path⟩ resp0).2.context.cached
      = false ∧
    (RedisCache.process_request cache2 server' ⟨"GET", req.path⟩ resp0).2.data
      = resp0.data := by
  have hGET : ("GET" : String) ∉ INVALIDATE_ON := by decide
  match hcr : cache.redis with
  | none =>
      simp [RedisCache.process_response, hm, hcr] at hr
  | some _ =>
      simp [RedisCache.process_response, hm, hcr] at hr
      have habsent : dictGet (cacheKey req.path) server' = none := by
        rw [← hr]
        exact dictGet_dictDelete_self _ _
      simp [RedisCache.process_request, hGET, habsent, dictGet_dictSet_self]

/-- Witness for C4: a successful concrete DELETE on a path whose key is
cached, followed by a GET on the same path, yields a miss. -/
theorem mutation_then_get_misses_witness :
    dictGet CACHE_HEADER
        (RedisCache.process_request RedisCache.init
          (dictDelete (cacheKey "/images") [(cacheKey "/images", ([3], 60))])
          ⟨"GET", "/images"⟩ ⟨⟨false⟩, false, none, []⟩).2.headers
      = some "Miss" :=
  (mutation_then_get_misses ⟨some ()⟩ RedisCache.init
      [(cacheKey "/images", ([3], 60))]
      (dictDelete (cacheKey "/images") [(cacheKey "/images", ([3], 60))])
      ⟨"DELETE", "/images"⟩ ⟨⟨false⟩, false, none, []⟩ ⟨⟨false⟩, false, none, []⟩
      (by decide) rfl).1

/-! ## Claim theorems for the catalog store -/

/-- C1: every failing `save` is atomic for the catalog. An invalid upload
fails with the decode error, leaving the whole store state (catalog map and
files) untouched; a persistence failure after a successful decode fails with
the IO error, likewise leaving the state untouched; and on any failing save
whatsoever the store state equals the initial one, so no partial catalog
entry is ever created. -/
theorem store_save_failure_atomic
    (s : StoreState) (image_id : String) (data : Bytes) (now : Nat) (writeOk : Bool) :
    (imageOpen data = .error .decodeError →
      Store.save s image_id data now writeOk = (s, .error .decodeError)) ∧
    (∀ img, imageOpen data = .ok img → writeOk = false →
      Store.save s image_id data now writeOk = (s, .error .ioError)) ∧
    (∀ e, (Store.save s image_id data now writeOk).2 = .error e →
      (Store.save s image_id data now writeOk).1 = s) := by
  refine ⟨?_, ?_, ?_⟩
  · intro hdec
    simp [Store.save, Store.load_from_bytes, hdec]
  · intro img hdec hw
    simp [Store.save, Store.load_from_bytes, hdec, hw]
  · intro e
    match hdec : imageOpen data with
    | .error e' => simp [Store.save, Store.load_from_bytes, hdec]
    | .ok img =>
        cases hw : writeOk <;>
          simp [Store.save, Store.load_from_bytes, hdec, hw]

/-- Witness for C1: a malformed upload and a failed write, both against a
concrete store, leave it unchanged and raise the two distinct errors. -/
theorem store_save_failure_atomic_witness :
    Store.save ⟨"/tmp/asgilook", [], []⟩ "img" [9] 0 true =
      (⟨"/tmp/asgilook", [], []⟩, .error .decodeError) ∧
    Store.save ⟨"/tmp/asgilook", [], []⟩ "img" [0, 2, 1, 5, 6] 7 false =
      (⟨"/tmp/asgilook", [], []⟩, .error .ioError) :=
  ⟨(store_save_failure_atomic ⟨"/tmp/asgilook", [], []⟩ "img" [9] 0 true).1 rfl,
   (store_save_failure_atomic ⟨"/tmp/asgilook", [], []⟩ "img" [0, 2, 1, 5, 6] 7
      false).2.1 ⟨2, 1, "L", [5, 6]⟩ rfl rfl⟩

/-- C7: `list_images` returns all catalog entries (a permutation of the
values of the catalog map), sorted ascending by their `modified` timestamp. -/
theorem list_images_sorted_by_modified (s : StoreState) :
    (Store.list_images s).Pairwise (fun a b => a.modified ≤ b.modified) ∧
    (Store.list_images s).Perm (s.images.map Prod.snd) := by
  constructor
  · have hs := @List.sorted_mergeSort CatalogEntry
      (fun a b : CatalogEntry => decide (a.modified ≤ b.modified))
      (fun a b c hab hbc => by
        simp only [decide_eq_true_eq] at *
        omega)
      (fun a b => by
        simp only [Bool.or_eq_true, decide_eq_true_eq]
        omega)
      (s.images.map Prod.snd)
    simpa [Store.list_images] using hs
  · exact List.mergeSort_perm _ _

/-- C8: if the very first request handled by a freshly constructed middleware
is a mutating one (POST) and it succeeds, `process_request` returns without
initializing the backend handle (it is still `None`), and `process_response`
then raises the attribute error of calling `delete` on `None`. -/
theorem first_mutating_request_hits_none_handle :
    (RedisCache.process_request RedisCache.init [] ⟨"POST", "/images"⟩
        ⟨⟨false⟩, false, none, []⟩).1.redis = none ∧
    RedisCache.process_response
        (RedisCache.process_request RedisCache.init [] ⟨"POST", "/images"⟩
          ⟨⟨false⟩, false, none, []⟩).1
        []
        ⟨"POST", "/images"⟩
        (RedisCache.process_request RedisCache.init [] ⟨"POST", "/images"⟩
          ⟨⟨false⟩, false, none, []⟩).2
        true
      = .error .attributeErrorNone :=
  ⟨rfl, rfl⟩

/-! ## Round-trip through the codec -/

theorem length_flatMap_triple (l : List Nat) :
    (l.flatMap fun p => [p, p, p]).length = 3 * l.length := by
  induction l with
  | nil => rfl
  | cons a t ih =>
      simp only [List.flatMap_cons, List.length_append, List.length_cons,
        List.length_nil, ih]
      omega

theorem imageOpen_ok_inv (data : Bytes) (img : Image) (h : imageOpen data = .ok img) :
    (img.mode = "RGB" ∧ img.pixels.length = 3 * img.width * img.height) ∨
    (img.mode ≠ "RGB" ∧ img.pixels.length = img.width * img.height) := by
  match data with
  | [] => simp [imageOpen] at h
  | [m] => simp [imageOpen] at h
  | [m, w] => simp [imageOpen] at h
  | m :: w :: ht :: px =>
      simp only [imageOpen] at h
      split_ifs at h with h0 hlen h1 hlen'
      · cases h
        right
        refine ⟨?_, hlen⟩
        simp
      · cases h
        left
        exact ⟨rfl, hlen'⟩

/-- C9: decoding valid bytes and re-encoding through `Store._convert`
(force RGB, then canonical JPEG) yields bytes that decode to an image with
exactly the original width and height. -/
theorem convert_roundtrip_preserves_dimensions
    (data : Bytes) (img : Image) (h : imageOpen data = .ok img) :
    ∃ img2, imageOpen (Store.convert img) = .ok img2 ∧
      img2.width = img.width ∧ img2.height = img.height := by
  rcases imageOpen_ok_inv data img h with ⟨hmode, hlen⟩ | ⟨hmode, hlen⟩
  · refine ⟨{ img with mode := "RGB" }, ?_, rfl, rfl⟩
    have : img.convertRGB = img := by simp [Image.convertRGB, hmode]
    simp [Store.convert, this, Image.saveJPEG, imageOpen, hlen]
  · have hlen3 : (img.pixels.flatMap fun p => [p, p, p]).length
        = 3 * img.width * img.height := by
      rw [length_flatMap_triple, hlen, Nat.mul_assoc]
    refine ⟨⟨img.width, img.height, "RGB", img.pixels.flatMap fun p => [p, p, p]⟩,
      ?_, rfl, rfl⟩
    simp [Store.convert, Image.convertRGB, hmode, Image.saveJPEG, imageOpen, hlen3]

/-- Witness for C9 at a concrete valid grayscale image of size 2 by 1. -/
theorem convert_roundtrip_preserves_dimensions_witness :
    ∃ img2, imageOpen (Store.convert ⟨2, 1, "L", [5, 6]⟩) = .ok img2 ∧
      img2.width = 2 ∧ img2.height = 1 :=
  convert_roundtrip_preserves_dimensions [0, 2, 1, 5, 6] ⟨2, 1, "L", [5, 6]⟩ rfl

/-! ## Lazy initialization: claim C10 -/

/-- Counterexample to C10: two concurrent first requests, each suspended
between the `None` check and the completion of `create_pool`, create two
backend connections, so initialization is not at-most-once and the handle
set by the first caller is overwritten by the second. -/
theorem lazy_init_double_creation :
    (runSched (initState 2) [0, 1, 0, 1]).created = 2 ∧
    ¬ (runSched (initState 2) [0, 1, 0, 1]).created ≤ 1 := by decide

theorem stepTask_stable (s : InitState) (i : Nat)
    (hr : s.redis ≠ none) (ht : ∀ pc ∈ s.tasks, pc ≠ TaskPC.awaitingPool) :
    (stepTask s i).redis ≠ none ∧
    (∀ pc ∈ (stepTask s i).tasks, pc ≠ TaskPC.awaitingPool) ∧
    (stepTask s i).created = s.created := by
  match hg : s.tasks[i]? with
  | none =>
      refine ⟨by simp [stepTask, hg, hr], ?_, by simp [stepTask, hg]⟩
      simpa [stepTask, hg] using ht
  | some .start =>
      have hred : ¬ s.redis = none := hr
      refine ⟨?_, ?_, ?_⟩ <;> simp [stepTask, hg, hred]
      intro pc hpc
      rcases List.mem_or_eq_of_mem_set hpc with hmem | hval
      · exact ht pc hmem
      · simp [hval]
  | some .awaitingPool =>
      exact absurd rfl (ht _ (List.getElem?_mem hg))
  | some .taskDone =>
      refine ⟨by simp [stepTask, hg, hr], ?_, by simp [stepTask, hg]⟩
      simpa [stepTask, hg] using ht

theorem runSched_created_stable (sched : List Nat) :
    ∀ s : InitState, s.redis ≠ none →
    (∀ pc ∈ s.tasks, pc ≠ TaskPC.awaitingPool) →
    (runSched s sched).created = s.created := by
  induction sched with
  | nil => intro s _ _; rfl
  | cons i rest ih =>
      intro s hr ht
      obtain ⟨hr', ht', hc⟩ := stepTask_stable s i hr ht
      simpa [runSched, hc] using ih (stepTask s i) hr' ht'

/-- Amendment of C10: when the first requests do not interleave (each one
runs the lazy-initialization fragment to completion before the next starts),
the backend connection is created at most once. -/
theorem lazy_init_sequential_at_most_once (n : Nat) :
    (runSched (initState n) (seqSched n)).created ≤ 1 := by
  match n with
  | 0 => decide
  | m + 1 =>
      have hsched : seqSched (m + 1) =
          0 :: 0 :: ((List.range m).map Nat.succ).flatMap (fun i => [i, i]) := by
        simp [seqSched, List.range_succ_eq_map, List.flatMap_cons, List.map_map]
      have hinit : stepTask (stepTask (initState (m + 1)) 0) 0 =
          { redis := some 1, created := 1,
            tasks := TaskPC.taskDone :: List.replicate m TaskPC.start } := by
        simp [initState, List.replicate_succ, stepTask, List.getElem?_cons_zero,
          List.set_cons_zero]
      have hstable := runSched_created_stable
        (((List.range m).map Nat.succ).flatMap (fun i => [i, i]))
        { redis := some 1, created := 1,
          tasks := TaskPC.taskDone :: List.replicate m TaskPC.start }
        (by simp)
        (by
          intro pc hpc
          rcases List.mem_cons.mp hpc with hd | hmem
          · simp [hd]
          · have := List.eq_of_mem_replicate hmem
            simp [this])
      calc (runSched (initState (m + 1)) (seqSched (m + 1))).created
          = (runSched
              { redis := some 1, created := 1,
                tasks := TaskPC.taskDone :: List.replicate m TaskPC.start }
              (((List.range m).map Nat.succ).flatMap (fun i => [i, i]))).created := by
            rw [hsched]
            show (runSched (stepTask (stepTask (initState (m + 1)) 0) 0) _).created = _
            rw [hinit]
        _ = 1 := hstable
        _ ≤ 1 := le_refl 1

end Asgilook
